import Mathlib

/-!
Verification of the viewport-synchronized spatial data engine of the pins
repository.  The definitions below are a shallow embedding of the relevant
parts of the source:

* the age-decay weight computation inside `_heatmapAsync`
  (src/unnamed/part_001, lines 247-249);
* the debounced viewport controller `_debouncedHeatmap` / `_boundsEqual`
  (src/unnamed/part_001, lines 201-222), modelled as an explicit state
  machine over traces of move-end and timer-fire events;
* the fetch error handling of `_heatmapAsync` (src/unnamed/part_001,
  lines 224-270), modelled as a function from the query outcome to the
  list of renderer effects the operation emits;
* the mark-mode state machine `toggleMarkMode` / `addSightingAsync`
  (src/unnamed/part_001, lines 126-163);
* the heatmap layer specification builder `createHeatmapLayer`
  (src/src/core/map/utils.ts, lines 23-80).

Geographic coordinates and layer interpolation stops are embedded as
rationals so that the controller and builder logic stay executable; the
decay computation uses `Real.exp` and is therefore stated over the reals.
-/

namespace Pins

/-- Maximum heatmap magnitude, constant `Osm.HEATMAP_MAX_MAG = 5` in the source. -/
def HEATMAP_MAX_MAG : ℝ := 5

/-- Decay constant in days, constant `MAGNITUDE_DECAY_DAYS = 30` in the source. -/
def MAGNITUDE_DECAY_DAYS : ℝ := 30

/-- Per-point weight computation of `_heatmapAsync` (src/unnamed/part_001,
line 249): `mag = Math.max(0.1, Osm.HEATMAP_MAX_MAG * Math.exp(-ageInDays / MAGNITUDE_DECAY_DAYS))`. -/
noncomputable def decayMag (ageInDays : ℝ) : ℝ :=
  max 0.1 (HEATMAP_MAX_MAG * Real.exp (-ageInDays / MAGNITUDE_DECAY_DAYS))

lemma le_decayMag (a : ℝ) : (0.1 : ℝ) ≤ decayMag a := le_max_left _ _

lemma decayMag_anti {a b : ℝ} (hab : a ≤ b) : decayMag b ≤ decayMag a := by
  unfold decayMag
  refine max_le_max le_rfl ?_
  have h30 : (0 : ℝ) < MAGNITUDE_DECAY_DAYS := by norm_num [MAGNITUDE_DECAY_DAYS]
  have hexp : Real.exp (-b / MAGNITUDE_DECAY_DAYS) ≤ Real.exp (-a / MAGNITUDE_DECAY_DAYS) := by
    apply Real.exp_le_exp.2
    simp only [MAGNITUDE_DECAY_DAYS]
    linarith
  have h5 : (0 : ℝ) ≤ HEATMAP_MAX_MAG := by norm_num [HEATMAP_MAX_MAG]
  exact mul_le_mul_of_nonneg_left hexp h5

lemma decayMag_le_of_nonneg {a : ℝ} (ha : 0 ≤ a) : decayMag a ≤ HEATMAP_MAX_MAG := by
  unfold decayMag
  have hexp : Real.exp (-a / MAGNITUDE_DECAY_DAYS) ≤ 1 := by
    rw [show (1 : ℝ) = Real.exp 0 from (Real.exp_zero).symm]
    apply Real.exp_le_exp.2
    have h30 : (0 : ℝ) < MAGNITUDE_DECAY_DAYS := by norm_num [MAGNITUDE_DECAY_DAYS]
    apply div_nonpos_of_nonpos_of_nonneg (by linarith) (le_of_lt h30)
  have h5 : (0 : ℝ) ≤ HEATMAP_MAX_MAG := by norm_num [HEATMAP_MAX_MAG]
  apply max_le
  · norm_num [HEATMAP_MAX_MAG]
  · calc HEATMAP_MAX_MAG * Real.exp (-a / MAGNITUDE_DECAY_DAYS)
        ≤ HEATMAP_MAX_MAG * 1 := mul_le_mul_of_nonneg_left hexp h5
      _ = HEATMAP_MAX_MAG := mul_one _

lemma decayMag_zero : decayMag 0 = HEATMAP_MAX_MAG := by
  unfold decayMag
  rw [show -(0 : ℝ) / MAGNITUDE_DECAY_DAYS = 0 by norm_num, Real.exp_zero, mul_one]
  apply max_eq_right
  norm_num [HEATMAP_MAX_MAG]

lemma exp_neg_one_bounds : (0.3 : ℝ) < Real.exp (-1) ∧ Real.exp (-1) < 0.4 := by
  have h1 : (2.7182818283 : ℝ) < Real.exp 1 := Real.exp_one_gt_d9
  have h2 : Real.exp 1 < 2.7182818286 := Real.exp_one_lt_d9
  have hpos : (0 : ℝ) < Real.exp 1 := Real.exp_pos 1
  rw [Real.exp_neg]
  constructor
  · rw [lt_inv_comm₀ (by norm_num) hpos]
    calc Real.exp 1 < 2.7182818286 := h2
      _ < 0.3⁻¹ := by norm_num
  · rw [inv_lt_comm₀ hpos (by norm_num)]
    calc (0.4 : ℝ)⁻¹ = 2.5 := by norm_num
      _ < 2.7182818283 := by norm_num
      _ < Real.exp 1 := h1

lemma decayMag_thirty : decayMag 30 = HEATMAP_MAX_MAG * Real.exp (-1) := by
  unfold decayMag
  rw [show -(30 : ℝ) / MAGNITUDE_DECAY_DAYS = -1 by norm_num [MAGNITUDE_DECAY_DAYS]]
  apply max_eq_right
  have := exp_neg_one_bounds.1
  calc (0.1 : ℝ) ≤ 5 * 0.3 := by norm_num
    _ ≤ HEATMAP_MAX_MAG * Real.exp (-1) := by
        apply mul_le_mul (by norm_num [HEATMAP_MAX_MAG]) (le_of_lt this) (by norm_num)
        norm_num [HEATMAP_MAX_MAG]

/-- C2: with defaults maxWeight = 5, minWeight = 0.1, decayConstant = 30, the
decay function is monotonically non-increasing on nonnegative ages, bounded in
the closed interval from 0.1 to 5, has value exactly 5 at age 0, and value
exactly 5 times the exponential of minus one at age 30, which is at least 0.1. -/
theorem C2_decay_monotone_bounded :
    decayMag 0 = HEATMAP_MAX_MAG ∧
    (∀ a b : ℝ, 0 ≤ a → a ≤ b → decayMag b ≤ decayMag a) ∧
    (∀ a : ℝ, 0 ≤ a → 0.1 ≤ decayMag a ∧ decayMag a ≤ HEATMAP_MAX_MAG) ∧
    decayMag 30 = HEATMAP_MAX_MAG * Real.exp (-1) ∧
    0.1 ≤ HEATMAP_MAX_MAG * Real.exp (-1) := by
  refine ⟨decayMag_zero, ?_, ?_, decayMag_thirty, ?_⟩
  · intro a b _ hab
    exact decayMag_anti hab
  · intro a ha
    exact ⟨le_decayMag a, decayMag_le_of_nonneg ha⟩
  · rw [← decayMag_thirty]
    exact le_decayMag 30

/-- Witness for C2 at the concrete ages 0 and 30. -/
theorem C2_decay_monotone_bounded_witness :
    decayMag 30 ≤ decayMag 0 ∧ 0.1 ≤ decayMag 30 ∧ decayMag 30 ≤ HEATMAP_MAX_MAG := by
  refine ⟨C2_decay_monotone_bounded.2.1 0 30 (by norm_num) (by norm_num), ?_, ?_⟩
  · exact (C2_decay_monotone_bounded.2.2.1 30 (by norm_num)).1
  · exact (C2_decay_monotone_bounded.2.2.1 30 (by norm_num)).2

lemma exp_five_gt_fifty : (50 : ℝ) < Real.exp 5 := by
  have h1 : (2.7182818283 : ℝ) < Real.exp 1 := Real.exp_one_gt_d9
  have h5 : Real.exp 5 = Real.exp 1 ^ 5 := by
    rw [← Real.exp_nat_mul]
    norm_num
  rw [h5]
  calc (50 : ℝ) < 2.7182818283 ^ 5 := by norm_num
    _ < Real.exp 1 ^ 5 := by
        apply pow_lt_pow_left₀ h1 (by norm_num) (by norm_num)

lemma decayMag_onefifty : decayMag 150 = 0.1 := by
  unfold decayMag
  rw [show -(150 : ℝ) / MAGNITUDE_DECAY_DAYS = -5 by norm_num [MAGNITUDE_DECAY_DAYS]]
  apply max_eq_left
  rw [Real.exp_neg]
  have h := exp_five_gt_fifty
  have hpos : (0 : ℝ) < Real.exp 5 := Real.exp_pos 5
  have hinv : Real.exp 5 * (Real.exp 5)⁻¹ = 1 := mul_inv_cancel₀ (ne_of_gt hpos)
  have hinvpos : (0 : ℝ) < (Real.exp 5)⁻¹ := inv_pos.2 hpos
  simp only [HEATMAP_MAX_MAG]
  nlinarith [mul_pos hinvpos (sub_pos.2 h)]

/-- C1 counterexample: at the finite positive age of 150 days the computed
weight equals the floor value 0.1 = minWeight exactly, refuting the claim that
the weight stays strictly above minWeight for every positive age. -/
theorem C1_counterexample : (0 : ℝ) < 150 ∧ decayMag 150 = 0.1 :=
  ⟨by norm_num, decayMag_onefifty⟩

lemma log_fifty_pos : 0 < Real.log 50 := Real.log_pos (by norm_num)

lemma log_point02 : Real.log 0.02 = -Real.log 50 := by
  rw [show (0.02 : ℝ) = 50⁻¹ by norm_num, Real.log_inv]

/-- C1 amended: a point at age 0 is given weight exactly maxWeight; for every
positive age the weight is at least minWeight, and it is strictly above
minWeight exactly for ages below 30 times the natural log of 50 (about 117.4
days); at or beyond that age the computed weight equals the floor exactly. -/
theorem C1_amended_decay_floor :
    decayMag 0 = HEATMAP_MAX_MAG ∧
    ∀ a : ℝ, 0 < a →
      0.1 ≤ decayMag a ∧ (0.1 < decayMag a ↔ a < 30 * Real.log 50) := by
  refine ⟨decayMag_zero, ?_⟩
  intro a _
  refine ⟨le_decayMag a, ?_⟩
  unfold decayMag
  simp only [HEATMAP_MAX_MAG, MAGNITUDE_DECAY_DAYS]
  rw [lt_max_iff]
  have h02 : (0 : ℝ) < 0.02 := by norm_num
  constructor
  · rintro (h | h)
    · norm_num at h
    · have hx : (0.02 : ℝ) < Real.exp (-a / 30) := by linarith
      have hlt := (Real.log_lt_iff_lt_exp h02).2 hx
      rw [log_point02] at hlt
      linarith
  · intro h
    right
    have hlt : Real.log 0.02 < -a / 30 := by
      rw [log_point02]
      linarith
    have := (Real.log_lt_iff_lt_exp h02).1 hlt
    linarith

/-- Witness for the amended C1 at the concrete age 30. -/
theorem C1_amended_decay_floor_witness :
    0.1 ≤ decayMag 30 ∧ (0.1 < decayMag 30 ↔ (30 : ℝ) < 30 * Real.log 50) :=
  C1_amended_decay_floor.2 30 (by norm_num)

/-- C9: for a negative age (a createdAt timestamp in the future of the clock)
the clamp bounds the weight only from below: the computed weight strictly
exceeds maxWeight, and it grows without bound as the age decreases. -/
theorem C9_future_weight_unbounded :
    (∀ a : ℝ, a < 0 → HEATMAP_MAX_MAG < decayMag a) ∧
    (∀ C : ℝ, ∃ a : ℝ, a < 0 ∧ C < decayMag a) := by
  constructor
  · intro a ha
    unfold decayMag
    rw [lt_max_iff]
    right
    have hpos : 0 < -a / MAGNITUDE_DECAY_DAYS := by
      apply div_pos (by linarith) (by norm_num [MAGNITUDE_DECAY_DAYS])
    have hexp : 1 < Real.exp (-a / MAGNITUDE_DECAY_DAYS) := by
      rw [show (1 : ℝ) = Real.exp 0 from (Real.exp_zero).symm]
      exact Real.exp_lt_exp.2 hpos
    simp only [HEATMAP_MAX_MAG]
    nlinarith
  · intro C
    refine ⟨-(30 * (max C 0 + 1)), ?_, ?_⟩
    · have : (0 : ℝ) ≤ max C 0 := le_max_right C 0
      nlinarith
    · unfold decayMag
      rw [lt_max_iff]
      right
      rw [show -(-(30 * (max C 0 + 1))) / MAGNITUDE_DECAY_DAYS = max C 0 + 1 by
        simp only [MAGNITUDE_DECAY_DAYS]
        ring]
      simp only [HEATMAP_MAX_MAG]
      nlinarith [Real.add_one_le_exp (max C 0 + 1), le_max_left C 0, le_max_right C 0]

/-- Witness for C9 at the concrete age of minus one day. -/
theorem C9_future_weight_unbounded_witness : HEATMAP_MAX_MAG < decayMag (-1) :=
  C9_future_weight_unbounded.1 (-1) (by norm_num)

/-- Threshold for bounds comparison, constant `BOUNDS_THRESHOLD = 0.001`. -/
def BOUNDS_THRESHOLD : ℚ := 1 / 1000

/-- Axis-aligned viewport bounds: the four edges returned by getWest, getEast,
getNorth and getSouth on a maplibre LngLatBounds. -/
structure Bounds where
  west : ℚ
  east : ℚ
  north : ℚ
  south : ℚ
deriving DecidableEq

/-- Bounds comparison `_boundsEqual` (src/unnamed/part_001, lines 217-222):
true when every one of the four edges differs by strictly less than the
threshold in absolute value. -/
def _boundsEqual (b1 b2 : Bounds) : Bool :=
  decide (|b1.west - b2.west| < BOUNDS_THRESHOLD) &&
  decide (|b1.east - b2.east| < BOUNDS_THRESHOLD) &&
  decide (|b1.north - b2.north| < BOUNDS_THRESHOLD) &&
  decide (|b1.south - b2.south| < BOUNDS_THRESHOLD)

/-- C5: the bounds equality predicate returns true if and only if, for each of
the four edges, the absolute difference is strictly below 0.001 degrees. -/
theorem C5_boundsEqual_iff (b1 b2 : Bounds) :
    _boundsEqual b1 b2 = true ↔
      (|b1.west - b2.west| < 1 / 1000 ∧ |b1.east - b2.east| < 1 / 1000 ∧
       |b1.north - b2.north| < 1 / 1000 ∧ |b1.south - b2.south| < 1 / 1000) := by
  simp [_boundsEqual, BOUNDS_THRESHOLD, and_assoc]

/-- Controller state: the statics `Osm.lastBounds` and `Osm.heatmapTimeout` of
the source.  A pending timer carries the bounds the map will report when the
timer fires, since the map has not moved in between. -/
structure CtrlState where
  lastBounds : Option Bounds
  pending : Option Bounds
deriving DecidableEq

/-- Controller events: a moveend event with the new map bounds, or the firing
of the pending debounce timer. -/
inductive CtrlEvent
  | move (b : Bounds)
  | fire
deriving DecidableEq

/-- Body of the debounce timer callback (src/unnamed/part_001, lines 206-213):
read the current bounds; when no prior fetch has occurred or the bounds differ
beyond the threshold from the last fetched bounds, record the current bounds
and fetch.  Returns the new state and whether `_heatmapAsync` was invoked. -/
def fireStep (s : CtrlState) : CtrlState × Bool :=
  match s.pending with
  | none => (s, false)
  | some b =>
    match s.lastBounds with
    | none => (⟨some b, none⟩, true)
    | some lb =>
      if _boundsEqual b lb then ({ s with pending := none }, false)
      else (⟨some b, none⟩, true)

/-- One controller step: `_debouncedHeatmap` (src/unnamed/part_001, lines
201-215) clears any pending timer and starts a new one for the latest bounds;
a firing timer runs the callback.  The Bool records whether the step issued a
fetch. -/
def debounceStep (s : CtrlState) : CtrlEvent → CtrlState × Bool
  | .move b => ({ s with pending := some b }, false)
  | .fire => fireStep s

/-- Run the controller over a trace of events, counting issued fetches. -/
def runTrace (s : CtrlState) : List CtrlEvent → CtrlState × Nat
  | [] => (s, 0)
  | e :: rest =>
    let p := debounceStep s e
    let q := runTrace p.1 rest
    (q.1, (if p.2 then 1 else 0) + q.2)

/-- C3: when the debounce timer fires with current bounds b, a fetch is issued
if and only if no prior fetch has occurred or the current bounds differ beyond
the threshold from the last fetched bounds; a fetch records b as the last
fetched bounds, and otherwise the last fetched bounds are left unchanged. -/
theorem C3_fire_fetch_iff (s : CtrlState) (b : Bounds) (h : s.pending = some b) :
    ((fireStep s).2 = true ↔
      (s.lastBounds = none ∨
        ∃ lb, s.lastBounds = some lb ∧ _boundsEqual b lb = false)) ∧
    ((fireStep s).2 = true → (fireStep s).1.lastBounds = some b) ∧
    ((fireStep s).2 = false → (fireStep s).1.lastBounds = s.lastBounds) := by
  unfold fireStep
  rw [h]
  cases hlb : s.lastBounds with
  | none => simp
  | some lb =>
    by_cases he : _boundsEqual b lb
    · simp [he]
    · simp [he]

/-- Concrete all-zero bounds used by witnesses. -/
def bounds0 : Bounds := ⟨0, 0, 0, 0⟩

/-- Witness for C3 at a concrete state with a pending timer and no prior
fetch. -/
theorem C3_fire_fetch_iff_witness :
    ((fireStep ⟨none, some bounds0⟩).2 = true ↔
      ((none : Option Bounds) = none ∨
        ∃ lb, (none : Option Bounds) = some lb ∧ _boundsEqual bounds0 lb = false)) ∧
    ((fireStep ⟨none, some bounds0⟩).2 = true →
      (fireStep ⟨none, some bounds0⟩).1.lastBounds = some bounds0) ∧
    ((fireStep ⟨none, some bounds0⟩).2 = false →
      (fireStep ⟨none, some bounds0⟩).1.lastBounds = none) :=
  C3_fire_fetch_iff ⟨none, some bounds0⟩ bounds0 rfl

lemma runTrace_count_zero (Q : Bounds → Prop)
    (hQ : ∀ b1 b2, Q b1 → Q b2 → _boundsEqual b1 b2 = true)
    (evs : List CtrlEvent) :
    ∀ (s : CtrlState) (lb0 : Bounds),
      (∀ b, CtrlEvent.move b ∈ evs → Q b) →
      (∀ b, s.pending = some b → Q b) →
      s.lastBounds = some lb0 → Q lb0 →
      (runTrace s evs).2 = 0 ∧ (runTrace s evs).1.lastBounds = some lb0 := by
  induction evs with
  | nil =>
    intro s lb0 _ _ hlast _
    simpa [runTrace] using hlast
  | cons e rest ih =>
    intro s lb0 hevs hpend hlast hQ0
    cases e with
    | move b =>
      have hQb : Q b := hevs b (List.mem_cons_self _ _)
      have hrec := ih { s with pending := some b } lb0
        (fun b' hb' => hevs b' (List.mem_cons_of_mem _ hb'))
        (fun b' hb' => Option.some.inj hb' ▸ hQb)
        hlast hQ0
      simpa [runTrace, debounceStep] using hrec
    | fire =>
      cases hp : s.pending with
      | none =>
        have hrec := ih s lb0
          (fun b' hb' => hevs b' (List.mem_cons_of_mem _ hb'))
          hpend hlast hQ0
        simpa [runTrace, debounceStep, fireStep, hp] using hrec
      | some b =>
        have hQb : Q b := hpend b hp
        have heq : _boundsEqual b lb0 = true := hQ b lb0 hQb hQ0
        have hrec := ih { s with pending := none } lb0
          (fun b' hb' => hevs b' (List.mem_cons_of_mem _ hb'))
          (fun b' hb' => by simp at hb')
          hlast hQ0
        simpa [runTrace, debounceStep, fireStep, hp, hlast, heq] using hrec

lemma runTrace_count_le_one (Q : Bounds → Prop)
    (hQ : ∀ b1 b2, Q b1 → Q b2 → _boundsEqual b1 b2 = true)
    (evs : List CtrlEvent) :
    ∀ s : CtrlState,
      (∀ b, CtrlEvent.move b ∈ evs → Q b) →
      (∀ b, s.pending = some b → Q b) →
      s.lastBounds = none →
      (runTrace s evs).2 ≤ 1 := by
  induction evs with
  | nil =>
    intro s _ _ _
    simp [runTrace]
  | cons e rest ih =>
    intro s hevs hpend hlast
    cases e with
    | move b =>
      have hQb : Q b := hevs b (List.mem_cons_self _ _)
      have hrec := ih { s with pending := some b }
        (fun b' hb' => hevs b' (List.mem_cons_of_mem _ hb'))
        (fun b' hb' => Option.some.inj hb' ▸ hQb)
        hlast
      simpa [runTrace, debounceStep] using hrec
    | fire =>
      cases hp : s.pending with
      | none =>
        have hrec := ih s
          (fun b' hb' => hevs b' (List.mem_cons_of_mem _ hb'))
          hpend hlast
        simpa [runTrace, debounceStep, fireStep, hp] using hrec
      | some b =>
        have hQb : Q b := hpend b hp
        have h0 := (runTrace_count_zero Q hQ rest ⟨some b, none⟩ b
          (fun b' hb' => hevs b' (List.mem_cons_of_mem _ hb'))
          (fun b' hb' => by simp at hb')
          rfl hQb).1
        simp [runTrace, debounceStep, fireStep, hp, hlast, h0]

/-- List of bounds carried by the move events of a trace. -/
def moveBounds : List CtrlEvent → List Bounds
  | [] => []
  | .move b :: rest => b :: moveBounds rest
  | .fire :: rest => moveBounds rest

lemma mem_moveBounds {b : Bounds} :
    ∀ {evs : List CtrlEvent}, CtrlEvent.move b ∈ evs → b ∈ moveBounds evs := by
  intro evs h
  induction evs with
  | nil => cases h
  | cons e rest ih =>
    cases e with
    | move b' =>
      rcases List.mem_cons.1 h with h1 | h2
      · injection h1 with hb
        simp [moveBounds, hb]
      · exact List.mem_cons_of_mem _ (ih h2)
    | fire =>
      rcases List.mem_cons.1 h with h1 | h2
      · cases h1
      · exact ih h2

/-- C4: over any trace of moveend events and timer firings whose observed
bounds are pairwise within the threshold on every edge, the controller started
with no prior fetch and no pending timer issues at most one fetch; moreover
each moveend replaces the pending timer with one for the new bounds rather
than queueing a second one. -/
theorem C4_at_most_one_fetch (evs : List CtrlEvent)
    (hpair : ∀ b1 ∈ moveBounds evs, ∀ b2 ∈ moveBounds evs,
      _boundsEqual b1 b2 = true) :
    (runTrace ⟨none, none⟩ evs).2 ≤ 1 ∧
    ∀ (s : CtrlState) (b : Bounds),
      (debounceStep s (CtrlEvent.move b)).1.pending = some b := by
  constructor
  · exact runTrace_count_le_one (fun b => b ∈ moveBounds evs)
      (fun b1 b2 h1 h2 => hpair b1 h1 b2 h2) evs ⟨none, none⟩
      (fun b hb => mem_moveBounds hb)
      (fun b hb => by simp at hb)
      rfl
  · intro s b
    rfl

/-- Witness for C4 on a concrete three-event trace of two moves to the same
bounds followed by a timer firing. -/
theorem C4_at_most_one_fetch_witness :
    (runTrace ⟨none, none⟩
      [CtrlEvent.move bounds0, CtrlEvent.move bounds0, CtrlEvent.fire]).2 ≤ 1 ∧
    ∀ (s : CtrlState) (b : Bounds),
      (debounceStep s (CtrlEvent.move b)).1.pending = some b :=
  C4_at_most_one_fetch _ (by
    intro b1 h1 b2 h2
    simp only [moveBounds, List.mem_cons, List.not_mem_nil, or_false] at h1 h2
    rcases h1 with h1 | h1 <;> rcases h2 with h2 | h2 <;>
      subst h1 <;> subst h2 <;>
      simp [_boundsEqual, bounds0, BOUNDS_THRESHOLD])

/-- Stored point row as returned by the active points query. -/
structure StoredPoint where
  id : ℤ
  lng : ℝ
  lat : ℝ
  created_at : ℝ

/-- GeoJSON point feature built by `_heatmapAsync` for one stored point. -/
structure Feature where
  id : ℤ
  coordinates : ℝ × ℝ
  mag : ℝ
  time : ℝ

/-- Feature collection held by the geojson source of the renderer. -/
structure FeatureCollection where
  features : List Feature

/-- Transformation of one stored point (src/unnamed/part_001, lines 247-262):
the age in days relative to the clock, the decayed magnitude, and the feature
fields id, coordinates, mag and time. -/
noncomputable def pointToFeature (now : ℝ) (p : StoredPoint) : Feature :=
  let ageInDays := (now - p.created_at) / (1000 * 60 * 60 * 24)
  ⟨p.id, (p.lng, p.lat), decayMag ageInDays, p.created_at⟩

/-- Renderer-directed effects a fetch can emit. -/
inductive HeatmapEffect
  | setData (fc : FeatureCollection)
  | scheduleRetry (delayMs : ℚ)

/-- Effect trace of `_heatmapAsync` (src/unnamed/part_001, lines 224-270):
with no source it returns immediately; a query error, or a thrown failure, is
logged and the operation returns before setData; on success the source data
is replaced by the freshly built feature collection.  No code path schedules
a retry. -/
noncomputable def _heatmapAsync (sourceExists : Bool) (now : ℝ)
    (queryResult : Except String (List StoredPoint)) : List HeatmapEffect :=
  if sourceExists = false then []
  else
    match queryResult with
    | .error _ => []
    | .ok points => [HeatmapEffect.setData ⟨points.map (pointToFeature now)⟩]

/-- Application of an emitted effect to the data source contents. -/
def applyEffect (ds : FeatureCollection) : HeatmapEffect → FeatureCollection
  | .setData fc => fc
  | .scheduleRetry _ => ds

/-- Application of a whole effect trace to the data source contents. -/
def applyEffects (ds : FeatureCollection) (effs : List HeatmapEffect) :
    FeatureCollection :=
  effs.foldl applyEffect ds

/-- C6: a fetch whose store query returns an error or throws emits nothing:
the data source contents after the failed fetch are exactly the contents held
before it, and no retry is scheduled. -/
theorem C6_fetch_error_preserves_data (srcEx : Bool) (now : ℝ) (e : String)
    (ds : FeatureCollection) :
    applyEffects ds (_heatmapAsync srcEx now (Except.error e)) = ds ∧
    ∀ d, HeatmapEffect.scheduleRetry d ∉ _heatmapAsync srcEx now (Except.error e) := by
  cases srcEx <;> simp [_heatmapAsync, applyEffects]

/-- Mark-mode relevant statics of the Osm class: whether `Osm.map` is
non-null, the `isMarkModeOn` flag, and the canvas cursor styled from it. -/
structure OsmState where
  mapInit : Bool
  isMarkModeOn : Bool
  cursor : String
deriving DecidableEq

/-- toggleMarkMode (src/unnamed/part_001, lines 156-163): with no map it logs
an error and returns; otherwise it flips the flag and styles the cursor from
the new flag value. -/
def toggleMarkMode (s : OsmState) : OsmState :=
  if s.mapInit = false then s
  else { s with isMarkModeOn := !s.isMarkModeOn,
                cursor := if !s.isMarkModeOn then "crosshair" else "" }

/-- Store-directed effects the click handler can emit. -/
inductive SightingEffect
  | insert (lng lat : ℝ) (user_id : String)
  | refreshHeatmap

/-- addSightingAsync (src/unnamed/part_001, lines 126-154): a click while the
mark mode is off returns immediately; otherwise the point is inserted under
the authenticated user id or the anonymous sentinel, and only a successful
insert triggers a heatmap refresh.  The handler writes no state. -/
def addSightingAsync (s : OsmState) (lng lat : ℝ) (user : Option String)
    (insertError : Option String) : OsmState × List SightingEffect :=
  if s.isMarkModeOn = false then (s, [])
  else
    let userId := user.getD "anonymous"
    match insertError with
    | some _ => (s, [SightingEffect.insert lng lat userId])
    | none => (s, [SightingEffect.insert lng lat userId,
                   SightingEffect.refreshHeatmap])

/-- Number of insert effects in an effect list. -/
def insertCount (effs : List SightingEffect) : Nat :=
  effs.countP fun e =>
    match e with
    | SightingEffect.insert _ _ _ => true
    | _ => false

/-- C7: toggling the mark mode twice restores the mode flag from any state,
and a click while the mode is off changes no state and issues zero store
inserts. -/
theorem C7_toggle_involutive_click_ignored :
    (∀ s : OsmState,
      (toggleMarkMode (toggleMarkMode s)).isMarkModeOn = s.isMarkModeOn) ∧
    (∀ (s : OsmState) (lng lat : ℝ) (user : Option String) (ie : Option String),
      s.isMarkModeOn = false →
        addSightingAsync s lng lat user ie = (s, []) ∧
        insertCount (addSightingAsync s lng lat user ie).2 = 0) := by
  constructor
  · intro s
    by_cases h : s.mapInit = false <;> simp [toggleMarkMode, h]
  · intro s lng lat user ie h
    simp [addSightingAsync, h, insertCount]

/-- Concrete initialized state with the mark mode off, used by witnesses. -/
def osmState0 : OsmState := ⟨true, false, ""⟩

/-- Witness for C7 at a concrete initialized state with the mode off. -/
theorem C7_toggle_involutive_click_ignored_witness :
    (toggleMarkMode (toggleMarkMode osmState0)).isMarkModeOn =
      osmState0.isMarkModeOn ∧
    (addSightingAsync osmState0 1 2 none none = (osmState0, []) ∧
      insertCount (addSightingAsync osmState0 1 2 none none).2 = 0) :=
  ⟨C7_toggle_involutive_click_ignored.1 osmState0,
   C7_toggle_involutive_click_ignored.2 osmState0 1 2 none none rfl⟩

/-- C10: invoking the toggle before the map is initialized leaves the whole
state, in particular the mode flag, unchanged; with the map initialized the
flag is flipped. -/
theorem C10_toggle_requires_map (s : OsmState) :
    (s.mapInit = false → toggleMarkMode s = s) ∧
    (s.mapInit = true → (toggleMarkMode s).isMarkModeOn = !s.isMarkModeOn) := by
  constructor
  · intro h
    simp [toggleMarkMode, h]
  · intro h
    simp [toggleMarkMode, h]

/-- Witness for C10 at concrete uninitialized and initialized states. -/
theorem C10_toggle_requires_map_witness :
    toggleMarkMode ⟨false, false, ""⟩ = ⟨false, false, ""⟩ ∧
    (toggleMarkMode osmState0).isMarkModeOn = !osmState0.isMarkModeOn :=
  ⟨(C10_toggle_requires_map ⟨false, false, ""⟩).1 rfl,
   (C10_toggle_requires_map osmState0).2 rfl⟩

/-- Piecewise linear interpolation over an ascending list of stops, following
the maplibre interpolate-linear expression: clamped below the first stop and
above the last one, linear in between. -/
def evalStops : List (ℚ × ℚ) → ℚ → ℚ
  | [], _ => 0
  | [(_, y0)], _ => y0
  | (x0, y0) :: (x1, y1) :: rest, x =>
    if x ≤ x0 then y0
    else if x ≤ x1 then y0 + (x - x0) / (x1 - x0) * (y1 - y0)
    else evalStops ((x1, y1) :: rest) x

lemma evalStops_two (x0 y0 x1 y1 x : ℚ) :
    evalStops [(x0, y0), (x1, y1)] x =
      if x ≤ x0 then y0
      else if x ≤ x1 then y0 + (x - x0) / (x1 - x0) * (y1 - y0)
      else y1 := by
  simp [evalStops]

/-- Heatmap layer specification produced by the builder: the identifier, the
source, and the interpolation stops of each paint channel
(src/src/core/map/utils.ts, lines 23-80). -/
structure HeatmapLayerSpec where
  id : String
  source : String
  weightStops : List (ℚ × ℚ)
  intensityStops : List (ℚ × ℚ)
  colorStops : List (ℚ × String)
  radiusStops : List (ℚ × ℚ)
  opacityStops : List (ℚ × ℚ)
deriving DecidableEq

/-- createHeatmapLayer (src/src/core/map/utils.ts, lines 23-80), with the
interpolate expressions recorded as their stop lists. -/
def createHeatmapLayer (src : String) (mag : ℚ) (zoom : ℚ) : HeatmapLayerSpec :=
  { id := src ++ "-heat",
    source := src,
    weightStops := [(0, 0), (mag, 1)],
    intensityStops := [(zoom, 9), (13, 3)],
    colorStops := [(0, "rgba(33,102,172,0)"), (0.2, "rgb(103,169,207)"),
      (0.4, "rgb(209,229,240)"), (0.6, "rgb(253,219,199)"),
      (0.8, "rgb(239,138,98)"), (1, "rgb(178,24,43)")],
    radiusStops := [(1, 2), (8, 4), (13, 8)],
    opacityStops := [(zoom, 1), (13, 0)] }

/-- C8 counterexample: in the layer built for the source sighting with max
magnitude 5 and reference zoom 11 (the arguments used at initialization), the
intensity stops sit at zooms 11 and 13 with multipliers 9 and 3, so there are
no multipliers with the lower one at referenceZoom and the higher one at
referenceZoom plus 4, refuting the claimed intensity scaling. -/
theorem C8_counterexample :
    ¬ ∃ vLo vHi : ℚ, vLo < vHi ∧
      (createHeatmapLayer "sighting" 5 11).intensityStops =
        [(11, vLo), (11 + 4, vHi)] := by
  rintro ⟨vLo, vHi, hlt, h⟩
  norm_num [createHeatmapLayer] at h

/-- C8 amended: for every source name, positive max magnitude and reference
zoom, the weight channel maps magnitudes between 0 and maxMagnitude linearly
onto the interval from 0 to 1, and the intensity channel interpolates over
zoom from multiplier 9 at referenceZoom down to multiplier 3 at the fixed
zoom 13. -/
theorem C8_amended_heatmap_layer (src : String) (M z w : ℚ)
    (hM : 0 < M) (h0 : 0 ≤ w) (hw : w ≤ M) :
    evalStops (createHeatmapLayer src M z).weightStops w = w / M ∧
    (createHeatmapLayer src M z).intensityStops = [(z, 9), (13, 3)] := by
  refine ⟨?_, rfl⟩
  show evalStops [(0, 0), (M, 1)] w = w / M
  rw [evalStops_two]
  by_cases hw0 : w ≤ 0
  · have hw0' : w = 0 := le_antisymm hw0 h0
    simp [hw0, hw0']
  · simp only [hw0, if_false, hw, if_true]
    field_simp

/-- Witness for the amended C8 at the initialization arguments and a concrete
magnitude of 2. -/
theorem C8_amended_heatmap_layer_witness :
    evalStops (createHeatmapLayer "sighting" 5 11).weightStops 2 = 2 / 5 ∧
    (createHeatmapLayer "sighting" 5 11).intensityStops = [(11, 9), (13, 3)] :=
  C8_amended_heatmap_layer "sighting" 5 11 2 (by norm_num) (by norm_num)
    (by norm_num)

end Pins
